import Mathlib

/-!
Verification development for the Habbo-Bot client networking core.

Shallow embedding of the Python sources:
* `ArcFour.py`            — the directionally asymmetric RC4-like stream cipher;
* `habbo_packet.py`       — the outgoing packet builder and the incoming buffer reader;
* `habbo_client.py`       — RSA pad/unpad helpers, disconnect handling, the listener
                            dispatch for the packets relevant to the claims, and the
                            send path;
* `crypto.py`             — the standalone PKCS#1 v1.5 verify-and-unpad acceptor;
* `parsers.py`            — floor-height-map and height-map parsers;
* `room_map.py`           — the room geometry record.

Bytes are modelled as `Nat` values, byte strings as `List Nat`.  Python `str`
values that the code only ever slices, compares bytewise, lowercases (ASCII) and
splits are modelled by their UTF-8 byte sequences; this is exact for the ASCII
data handled by every claim.
-/

/-! ## ArcFour.py — the asymmetric RC4-like cipher -/

/-- Cipher state: the S array (256 byte values) plus the two cursors. -/
structure ArcState where
  s : List Nat
  i : Nat
  j : Nat
deriving Repr, DecidableEq

/-- Python `self._s[a], self._s[b] = self._s[b], self._s[a]`:
both right-hand sides are read before either assignment happens. -/
def swapL (l : List Nat) (a b : Nat) : List Nat :=
  (l.set a (l.getD b 0)).set b (l.getD a 0)

/-- One iteration of the key-scheduling loop in `ArcFour.__init__`
(`j = (j + s[i] + key[i % len(key)]) % 256` followed by the swap). -/
def ksaStep (key : List Nat) (p : List Nat × Nat) (i : Nat) : List Nat × Nat :=
  let j := (p.2 + p.1.getD i 0 + key.getD (i % key.length) 0) % 256
  (swapL p.1 i j, j)

/-- `ArcFour.__init__`: standard RC4 KSA over `S = [0..255]`, cursors reset to 0.
The Python code divides by `len(key)`, so the cipher is only ever constructed
with a non-empty key. -/
def arcInit (key : List Nat) : ArcState :=
  let r := (List.range 256).foldl (ksaStep key) (List.range 256, 0)
  ⟨r.1, 0, 0⟩

/-- One loop iteration of `ArcFour._apply_cipher`: advance the state (identical
for both directions), then derive the keystream byte — a single S lookup for the
encrypt direction, a double-indirected lookup for the decrypt direction — and
XOR it onto the data byte. -/
def stepByte (isDecrypt : Bool) (st : ArcState) (b : Nat) : ArcState × Nat :=
  let i := (st.i + 1) % 256
  let j := (st.j + st.s.getD i 0) % 256
  let s := swapL st.s i j
  let index1 := (s.getD i 0 + s.getD j 0) % 256
  let ks := if isDecrypt then s.getD (s.getD index1 0) 0 else s.getD index1 0
  (⟨s, i, j⟩, b ^^^ ks)

/-- `ArcFour._apply_cipher` over a byte sequence, returning the final cipher
state together with the output bytes. -/
def applyCipher (isDecrypt : Bool) (st : ArcState) : List Nat → ArcState × List Nat
  | [] => (st, [])
  | b :: bs =>
    let r := stepByte isDecrypt st b
    let rest := applyCipher isDecrypt r.1 bs
    (rest.1, r.2 :: rest.2)

/-- `ArcFour.encrypt`: the standard single-lookup direction. -/
def arcEncrypt (st : ArcState) (data : List Nat) : ArcState × List Nat :=
  applyCipher false st data

/-- `ArcFour.decrypt`: the non-standard double-lookup direction. -/
def arcDecrypt (st : ArcState) (data : List Nat) : ArcState × List Nat :=
  applyCipher true st data

/-- The key of concrete scenario 1 of the spec. -/
def scenarioKey : List Nat := [1, 2, 3, 4, 5]

/-- `"HELLO"` as bytes. -/
def helloBytes : List Nat := [72, 69, 76, 76, 79]

/-! ### Generic lemmas about the in-place swap -/

theorem set_getElem_self_eq : ∀ (l : List Nat) (i : Nat) (h : i < l.length),
    l.set i (l.get ⟨i, h⟩) = l
  | _ :: _, 0, _ => rfl
  | x :: xs, n + 1, h => by
    simpa [List.set_cons_succ] using set_getElem_self_eq xs n (Nat.lt_of_succ_lt_succ h)

theorem getElem_cons_set_perm : ∀ (xs : List Nat) (k : Nat) (hk : k < xs.length) (x : Nat),
    (xs.get ⟨k, hk⟩ :: xs.set k x).Perm (x :: xs)
  | y :: ys, 0, _, x => List.Perm.swap x y ys
  | y :: ys, k + 1, hk, x => by
    have ih := getElem_cons_set_perm ys k (Nat.lt_of_succ_lt_succ hk) x
    have h1 : ((y :: ys).get ⟨k + 1, hk⟩ :: (y :: ys).set (k + 1) x)
        = ys.get ⟨k, Nat.lt_of_succ_lt_succ hk⟩ :: y :: ys.set k x := by simp
    rw [h1]
    exact (List.Perm.swap y _ _).trans ((List.Perm.cons y ih).trans (List.Perm.swap x y ys))

theorem set_set_swap_perm : ∀ (l : List Nat) (i j : Nat) (hi : i < l.length)
    (hj : j < l.length), ((l.set i (l.get ⟨j, hj⟩)).set j (l.get ⟨i, hi⟩)).Perm l := by
  intro l i j
  induction l generalizing i j with
  | nil => intro hi; exact absurd hi (by simp)
  | cons x xs ih =>
    intro hi hj
    match i, j with
    | 0, 0 => simp
    | 0, k + 1 =>
      have hk := Nat.lt_of_succ_lt_succ hj
      have : ((x :: xs).set 0 ((x :: xs).get ⟨k + 1, hj⟩)).set (k + 1) x
          = xs.get ⟨k, hk⟩ :: xs.set k x := by simp
      rw [show (x :: xs).get ⟨0, hi⟩ = x from rfl, this]
      exact getElem_cons_set_perm xs k hk x
    | m + 1, 0 =>
      have hm := Nat.lt_of_succ_lt_succ hi
      have : ((x :: xs).set (m + 1) x).set 0 ((x :: xs).get ⟨m + 1, hi⟩)
          = xs.get ⟨m, hm⟩ :: xs.set m x := by simp
      rw [show (x :: xs).get ⟨0, hj⟩ = x from rfl, this]
      exact getElem_cons_set_perm xs m hm x
    | m + 1, k + 1 =>
      have hm := Nat.lt_of_succ_lt_succ hi
      have hk := Nat.lt_of_succ_lt_succ hj
      have := ih m k hm hk
      simpa using List.Perm.cons x this

theorem swapL_perm {l : List Nat} {a b : Nat} (ha : a < l.length) (hb : b < l.length) :
    (swapL l a b).Perm l := by
  unfold swapL
  rw [List.getD_eq_getElem l 0 hb, List.getD_eq_getElem l 0 ha]
  exact set_set_swap_perm l a b ha hb

/-! ### C9: the S array stays a permutation of 0..255 -/

theorem ksaStep_perm (key T : List Nat) (hT : T.length = 256) (p : List Nat × Nat)
    (i : Nat) (hp : p.1.Perm T) (hi : i < 256) : ((ksaStep key p i).1).Perm T := by
  have hlen : p.1.length = 256 := hp.length_eq.trans hT
  have hj : (p.2 + p.1.getD i 0 + key.getD (i % key.length) 0) % 256 < 256 :=
    Nat.mod_lt _ (by norm_num)
  exact (swapL_perm (by omega) (by omega)).trans hp

theorem foldl_ksa_perm (key T : List Nat) (hT : T.length = 256) : ∀ (l : List Nat)
    (acc : List Nat × Nat), acc.1.Perm T → (∀ i ∈ l, i < 256) →
      ((l.foldl (ksaStep key) acc).1).Perm T
  | [], acc, hacc, _ => hacc
  | i :: l, acc, hacc, hl => by
    simp only [List.foldl_cons]
    exact foldl_ksa_perm key T hT l _ (ksaStep_perm key T hT acc i hacc (hl i (by simp)))
      (fun x hx => hl x (by simp [hx]))

theorem foldl_ksa_perm_self (key : List Nat) : ∀ (R : List Nat), R.length = 256 →
    (∀ i ∈ R, i < 256) → ((R.foldl (ksaStep key) (R, 0)).1).Perm R := fun R hT hmem =>
  foldl_ksa_perm key R hT R (R, 0) (List.Perm.refl R) hmem

theorem arcInit_perm (key : List Nat) : ((arcInit key).s).Perm (List.range 256) := by
  simp only [arcInit]
  exact foldl_ksa_perm_self key (List.range 256) (by simp) (fun i hi => List.mem_range.mp hi)

theorem stepByte_perm (d : Bool) (st : ArcState) (b : Nat)
    (h : st.s.Perm (List.range 256)) : ((stepByte d st b).1.s).Perm (List.range 256) := by
  have hlen : st.s.length = 256 := h.length_eq.trans (by simp)
  simp only [stepByte]
  have h1 : (st.i + 1) % 256 < 256 := Nat.mod_lt _ (by norm_num)
  have h2 : (st.j + st.s.getD ((st.i + 1) % 256) 0) % 256 < 256 := Nat.mod_lt _ (by norm_num)
  exact (swapL_perm (by omega) (by omega)).trans h

theorem applyCipher_perm (d : Bool) : ∀ (data : List Nat) (st : ArcState),
    st.s.Perm (List.range 256) → ((applyCipher d st data).1.s).Perm (List.range 256)
  | [], st, h => h
  | b :: bs, st, h => by
    simp only [applyCipher]
    exact applyCipher_perm d bs _ (stepByte_perm d st b h)

/-- C9: after the key schedule the S array is a permutation of `0..255`, and it
remains one after any sequence of bytes processed along either direction
(each state update only swaps two entries of S). -/
theorem arcfour_state_permutation (key : List Nat) (hkey : key ≠ []) :
    ((arcInit key).s).Perm (List.range 256) ∧
      ∀ (d : Bool) (st : ArcState) (data : List Nat),
        st.s.Perm (List.range 256) → ((applyCipher d st data).1.s).Perm (List.range 256) :=
  ⟨arcInit_perm key, fun d st data h => applyCipher_perm d data st h⟩

/-- Witness for C9 at the concrete key `[1]` and one processed byte. -/
theorem arcfour_state_permutation_witness :
    ([1] : List Nat) ≠ [] ∧ ((applyCipher false (arcInit [1]) [7]).1.s).Perm (List.range 256) :=
  ⟨by decide, (arcfour_state_permutation [1] (by decide)).2 false (arcInit [1]) [7]
    ((arcfour_state_permutation [1] (by decide)).1)⟩

/-! ### C1: the decrypt path does not invert the encrypt path; the encrypt path does -/

theorem xor_xor_cancel (a c : Nat) : a ^^^ c ^^^ c = a := by
  rw [Nat.xor_assoc, Nat.xor_self, Nat.xor_zero]

theorem stepByte_encrypt_twice (st : ArcState) (b : Nat) :
    stepByte false st (stepByte false st b).2 = ((stepByte false st b).1, b) := by
  simp [stepByte, xor_xor_cancel]

theorem applyCipher_encrypt_twice : ∀ (data : List Nat) (st : ArcState),
    applyCipher false st (applyCipher false st data).2 = ((applyCipher false st data).1, data)
  | [], _ => rfl
  | b :: bs, st => by
    simp only [applyCipher]
    rw [stepByte_encrypt_twice st b]
    simp only []
    rw [applyCipher_encrypt_twice bs (stepByte false st b).1]

set_option maxRecDepth 20000 in
/-- C1 (counterexample part): with key `[1,2,3,4,5]`, feeding the encryptor's
output for `"HELLO"` into a freshly keyed instance running the decrypt-direction
(double-indirected) keystream does not return `"HELLO"` (it yields
`[27, 12, 160, 82, 247]`). -/
theorem cipher_decrypt_path_counterexample :
    (arcDecrypt (arcInit scenarioKey) (arcEncrypt (arcInit scenarioKey) helloBytes).2).2
      ≠ helloBytes := by decide

/-- C1 (amended): for every non-empty key and every plaintext of length up to
64 KB, a freshly keyed second instance running the standard encrypt-direction
(single-lookup) keystream recovers the plaintext from the first instance's
ciphertext; the decrypt-direction (double-indirected) keystream does not
(see the counterexample). -/
theorem cipher_encrypt_path_roundtrip (key data : List Nat) (hkey : key ≠ [])
    (hdata : data.length ≤ 65536) :
    (arcEncrypt (arcInit key) (arcEncrypt (arcInit key) data).2).2 = data := by
  unfold arcEncrypt
  rw [applyCipher_encrypt_twice]

/-- Witness for the amended C1 at key `[1,2,3,4,5]` and plaintext `"HELLO"`. -/
theorem cipher_encrypt_path_roundtrip_witness :
    scenarioKey ≠ [] ∧ helloBytes.length ≤ 65536 ∧
      (arcEncrypt (arcInit scenarioKey) (arcEncrypt (arcInit scenarioKey) helloBytes).2).2
        = helloBytes :=
  ⟨by decide, by decide,
    cipher_encrypt_path_roundtrip scenarioKey helloBytes (by decide) (by decide)⟩

/-! ## habbo_packet.py — the frame codec -/

/-- `struct.pack` big-endian unsigned short; `pack` raises for values outside
`0..65535`, so the codec theorems restrict to that range. -/
def be2 (v : Nat) : List Nat := [v / 256 % 256, v % 256]

/-- `struct.pack` big-endian unsigned 32-bit integer (same caveat as `be2`). -/
def be4 (v : Nat) : List Nat :=
  [v / 16777216 % 256, v / 65536 % 256, v / 256 % 256, v % 256]

/-- `struct.pack '>i'`: two's-complement big-endian signed 32-bit integer, for
values in `[-2^31, 2^31)` (outside that range `pack` raises). -/
def packI32 (v : Int) : List Nat := be4 (v % 4294967296).toNat

/-- One field written into a `HabboPacket` body: string, u16, i32, bool or u8
(`write_string`, `write_short`, `write_integer`, `write_boolean`,
`write_byte`). -/
inductive WriteOp where
  | wstr (s : List Nat)
  | wshort (v : Nat)
  | wint (v : Int)
  | wbool (b : Bool)
  | wbyte (v : Nat)
deriving Repr, DecidableEq

/-- Bytes a single writer appends to the builder's buffer.  `write_string`
writes the UTF-8 length as a u16 then the bytes; `write_boolean` writes
`0x01`/`0x00`. -/
def encodeOp : WriteOp → List Nat
  | .wstr s => be2 s.length ++ s
  | .wshort v => be2 v
  | .wint v => packI32 v
  | .wbool b => [if b then 1 else 0]
  | .wbyte v => [v]

/-- `HabboPacket` buffer after construction with `packet_id` and the given
sequence of writes: the id is written first as a u16, then each field. -/
def packetBody (id : Nat) (ops : List WriteOp) : List Nat :=
  be2 id ++ (ops.map encodeOp).flatten

/-- `HabboPacket.get_bytes()`: the body (id plus fields) prefixed by its length
as a big-endian u32. -/
def getBytes (id : Nat) (ops : List WriteOp) : List Nat :=
  be4 (packetBody id ops).length ++ packetBody id ops

/-- The incoming `Buffer`: the raw bytes plus the read cursor. -/
structure PBuffer where
  buffer : List Nat
  pos : Nat
deriving Repr, DecidableEq

/-- `Buffer.read_short`: 2 bytes big-endian unsigned, 0 on underflow (cursor
not advanced). -/
def readShort (b : PBuffer) : Nat × PBuffer :=
  if b.pos + 2 > b.buffer.length then (0, b)
  else (256 * b.buffer.getD b.pos 0 + b.buffer.getD (b.pos + 1) 0,
    ⟨b.buffer, b.pos + 2⟩)

/-- `Buffer.read_integer`: 4 bytes big-endian **unsigned** (`'>I'`), 0 on
underflow. -/
def readInteger (b : PBuffer) : Nat × PBuffer :=
  if b.pos + 4 > b.buffer.length then (0, b)
  else (16777216 * b.buffer.getD b.pos 0 + 65536 * b.buffer.getD (b.pos + 1) 0
      + 256 * b.buffer.getD (b.pos + 2) 0 + b.buffer.getD (b.pos + 3) 0,
    ⟨b.buffer, b.pos + 4⟩)

/-- `Buffer.read_string`: u16 length, then that many bytes clamped to the end
of the buffer. -/
def readString (b : PBuffer) : List Nat × PBuffer :=
  let r := readShort b
  let endPos := min (r.2.pos + r.1) r.2.buffer.length
  ((r.2.buffer.drop r.2.pos).take (endPos - r.2.pos), ⟨r.2.buffer, endPos⟩)

/-- `Buffer.read_boolean`: 1 byte, nonzero is true, false on underflow. -/
def readBoolean (b : PBuffer) : Bool × PBuffer :=
  if b.pos + 1 > b.buffer.length then (false, b)
  else (b.buffer.getD b.pos 0 != 0, ⟨b.buffer, b.pos + 1⟩)

/-- `Buffer.read_bytes(n)`: a raw slice; the cursor advances by `n` even past
the end. -/
def readBytes (n : Nat) (b : PBuffer) : List Nat × PBuffer :=
  ((b.buffer.drop b.pos).take n, ⟨b.buffer, b.pos + n⟩)

/-- A parsed field value as returned by the reader that corresponds to each
writer (`read_string`, `read_short`, `read_integer` — unsigned, `read_boolean`,
`read_bytes(1)`). -/
inductive FieldVal where
  | fstr (s : List Nat)
  | fshort (v : Nat)
  | fint (v : Nat)
  | fbool (b : Bool)
  | fbyte (s : List Nat)
deriving Repr, DecidableEq

/-- Read one field with the reader corresponding to the writer that produced
it. -/
def readField : WriteOp → PBuffer → FieldVal × PBuffer
  | .wstr _, b => let r := readString b; (.fstr r.1, r.2)
  | .wshort _, b => let r := readShort b; (.fshort r.1, r.2)
  | .wint _, b => let r := readInteger b; (.fint r.1, r.2)
  | .wbool _, b => let r := readBoolean b; (.fbool r.1, r.2)
  | .wbyte _, b => let r := readBytes 1 b; (.fbyte r.1, r.2)

/-- Read a whole sequence of fields. -/
def readFields : List WriteOp → PBuffer → List FieldVal × PBuffer
  | [], b => ([], b)
  | op :: ops, b =>
    let r := readField op b
    let rest := readFields ops r.2
    (r.1 :: rest.1, rest.2)

/-- The value each writer's corresponding reader hands back when the write was
in range: strings and single bytes come back verbatim, u16 and bool come back
equal, and an i32 comes back as its **unsigned** two's-complement reading. -/
def expectedVal : WriteOp → FieldVal
  | .wstr s => .fstr s
  | .wshort v => .fshort v
  | .wint v => .fint (v % 4294967296).toNat
  | .wbool b => .fbool b
  | .wbyte v => .fbyte [v]

/-- Every written value is inside its wire type's range (outside it,
`struct.pack` raises in the builder). -/
def opInRange : WriteOp → Prop
  | .wstr s => s.length < 65536
  | .wshort v => v < 65536
  | .wint v => -2147483648 ≤ v ∧ v < 2147483648
  | .wbool _ => True
  | .wbyte v => v < 256

/-! ### C2: codec round trip -/

theorem getD_concat (p l rest : List Nat) (n : Nat) (h1 : p.length ≤ n)
    (h2 : n - p.length < l.length) :
    (p ++ l ++ rest).getD n 0 = l.getD (n - p.length) 0 := by
  rw [List.getD_eq_getElem?_getD, List.getD_eq_getElem?_getD, List.append_assoc,
    List.getElem?_append_right h1, List.getElem?_append]
  rw [if_pos h2]

theorem drop_concat (p l rest : List Nat) : (p ++ l ++ rest).drop p.length = l ++ rest := by
  rw [List.append_assoc, List.drop_left]

theorem length_concat (p l rest : List Nat) :
    (p ++ l ++ rest).length = p.length + l.length + rest.length := by
  simp [Nat.add_assoc]

theorem readShort_at (p rest : List Nat) (v : Nat) (hv : v < 65536) :
    readShort ⟨p ++ be2 v ++ rest, p.length⟩ = (v, ⟨p ++ be2 v ++ rest, p.length + 2⟩) := by
  have hlen := length_concat p (be2 v) rest
  have hb2 : (be2 v).length = 2 := rfl
  unfold readShort
  rw [if_neg (by simp only []; omega)]
  have g0 : (p ++ be2 v ++ rest).getD p.length 0 = (be2 v).getD 0 0 := by
    have := getD_concat p (be2 v) rest p.length (Nat.le_refl _) (by omega)
    simpa using this
  have g1 : (p ++ be2 v ++ rest).getD (p.length + 1) 0 = (be2 v).getD 1 0 := by
    have := getD_concat p (be2 v) rest (p.length + 1) (by omega) (by omega)
    simpa using this
  rw [g0, g1]
  have : 256 * ((be2 v).getD 0 0) + (be2 v).getD 1 0 = v := by
    simp only [be2, List.getD_cons_zero, List.getD_cons_succ]
    omega
  rw [this]

theorem readInteger_at (p rest : List Nat) (v : Nat) (hv : v < 4294967296) :
    readInteger ⟨p ++ be4 v ++ rest, p.length⟩ = (v, ⟨p ++ be4 v ++ rest, p.length + 4⟩) := by
  have hlen := length_concat p (be4 v) rest
  have hb4 : (be4 v).length = 4 := rfl
  unfold readInteger
  rw [if_neg (by simp only []; omega)]
  have g0 : (p ++ be4 v ++ rest).getD p.length 0 = (be4 v).getD 0 0 := by
    simpa using getD_concat p (be4 v) rest p.length (Nat.le_refl _) (by omega)
  have g1 : (p ++ be4 v ++ rest).getD (p.length + 1) 0 = (be4 v).getD 1 0 := by
    simpa using getD_concat p (be4 v) rest (p.length + 1) (by omega) (by omega)
  have g2 : (p ++ be4 v ++ rest).getD (p.length + 2) 0 = (be4 v).getD 2 0 := by
    simpa using getD_concat p (be4 v) rest (p.length + 2) (by omega) (by omega)
  have g3 : (p ++ be4 v ++ rest).getD (p.length + 3) 0 = (be4 v).getD 3 0 := by
    simpa using getD_concat p (be4 v) rest (p.length + 3) (by omega) (by omega)
  rw [g0, g1, g2, g3]
  have : 16777216 * ((be4 v).getD 0 0) + 65536 * ((be4 v).getD 1 0)
      + 256 * ((be4 v).getD 2 0) + (be4 v).getD 3 0 = v := by
    simp only [be4, List.getD_cons_zero, List.getD_cons_succ]
    omega
  rw [this]

theorem readBoolean_at (p rest : List Nat) (x : Nat) :
    readBoolean ⟨p ++ [x] ++ rest, p.length⟩
      = (x != 0, ⟨p ++ [x] ++ rest, p.length + 1⟩) := by
  have hlen := length_concat p [x] rest
  have h1 : ([x] : List Nat).length = 1 := rfl
  unfold readBoolean
  rw [if_neg (by simp only []; omega)]
  have g0 : (p ++ [x] ++ rest).getD p.length 0 = x := by
    simpa using getD_concat p [x] rest p.length (Nat.le_refl _) (by simp)
  rw [g0]

theorem readBytes_at (p rest s : List Nat) (n : Nat) (hn : s.length = n) :
    readBytes n ⟨p ++ s ++ rest, p.length⟩ = (s, ⟨p ++ s ++ rest, p.length + n⟩) := by
  unfold readBytes
  rw [drop_concat]
  subst hn
  rw [List.take_left]

theorem readString_at (p rest s : List Nat) (hs : s.length < 65536) :
    readString ⟨p ++ (be2 s.length ++ s) ++ rest, p.length⟩
      = (s, ⟨p ++ (be2 s.length ++ s) ++ rest, p.length + (2 + s.length)⟩) := by
  have hsplit : p ++ (be2 s.length ++ s) ++ rest = p ++ be2 s.length ++ (s ++ rest) := by
    simp [List.append_assoc]
  unfold readString
  rw [hsplit, readShort_at p (s ++ rest) s.length hs]
  simp only []
  have hlen := length_concat p (be2 s.length) (s ++ rest)
  have hb2 : (be2 s.length).length = 2 := rfl
  have hmin : min (p.length + 2 + s.length) (p ++ be2 s.length ++ (s ++ rest)).length
      = p.length + 2 + s.length := by
    simp only [hlen, hb2, List.length_append]
    omega
  rw [hmin]
  have hdrop : (p ++ be2 s.length ++ (s ++ rest)).drop (p.length + 2) = s ++ rest := by
    have h : p.length + 2 = (p ++ be2 s.length).length := by simp [hb2]
    rw [h, List.drop_left]
  rw [hdrop]
  have htake : (s ++ rest).take (p.length + 2 + s.length - (p.length + 2)) = s := by
    have : p.length + 2 + s.length - (p.length + 2) = s.length := by omega
    rw [this, List.take_left]
  rw [htake, Nat.add_assoc]

theorem readField_encode (op : WriteOp) (hop : opInRange op) (p rest : List Nat) :
    readField op ⟨p ++ encodeOp op ++ rest, p.length⟩
      = (expectedVal op, ⟨p ++ encodeOp op ++ rest, p.length + (encodeOp op).length⟩) := by
  cases op with
  | wstr s =>
    simp only [readField, encodeOp, expectedVal]
    rw [readString_at p rest s hop]
    simp [be2]
    omega
  | wshort v =>
    simp only [readField, encodeOp, expectedVal]
    rw [readShort_at p rest v hop]
    simp [be2]
  | wint v =>
    have hv : (v % 4294967296).toNat < 4294967296 := by
      have h0 : 0 ≤ v % 4294967296 := Int.emod_nonneg v (by norm_num)
      have h1 : v % 4294967296 < 4294967296 := Int.emod_lt_of_pos v (by norm_num)
      omega
    simp only [readField, encodeOp, expectedVal, packI32]
    rw [readInteger_at p rest _ hv]
    simp [be4]
  | wbool b =>
    simp only [readField, encodeOp, expectedVal]
    rw [readBoolean_at]
    cases b <;> simp
  | wbyte v =>
    simp only [readField, encodeOp, expectedVal]
    rw [readBytes_at p rest [v] 1 rfl]
    simp

theorem readFields_encode : ∀ (ops : List WriteOp) (p rest : List Nat),
    (∀ op ∈ ops, opInRange op) →
    readFields ops ⟨p ++ (ops.map encodeOp).flatten ++ rest, p.length⟩
      = (ops.map expectedVal,
         ⟨p ++ (ops.map encodeOp).flatten ++ rest,
          p.length + ((ops.map encodeOp).flatten).length⟩)
  | [], p, rest, _ => by simp [readFields]
  | op :: ops, p, rest, h => by
    have hop := h op (by simp)
    have hops : ∀ o ∈ ops, opInRange o := fun o ho => h o (by simp [ho])
    have hbuf : p ++ ((op :: ops).map encodeOp).flatten ++ rest
        = p ++ encodeOp op ++ ((ops.map encodeOp).flatten ++ rest) := by
      simp [List.append_assoc]
    simp only [readFields]
    rw [hbuf, readField_encode op hop p ((ops.map encodeOp).flatten ++ rest)]
    have hbuf2 : p ++ encodeOp op ++ ((ops.map encodeOp).flatten ++ rest)
        = (p ++ encodeOp op) ++ (ops.map encodeOp).flatten ++ rest := by
      simp [List.append_assoc]
    have hpos : p.length + (encodeOp op).length = (p ++ encodeOp op).length := by simp
    rw [hbuf2, hpos, readFields_encode ops (p ++ encodeOp op) rest hops]
    simp [List.append_assoc, Nat.add_assoc]

/-- C2 (amended): for every packet id below 2^16 and every mixed sequence of
in-range field writes, parsing the builder's emitted bytes minus the 4-byte
length prefix with the corresponding readers recovers the packet id and, for
strings, u16s, bools and u8s, the written values verbatim — but an i32 comes
back as its **unsigned** two's-complement reading (`read_integer` uses `'>I'`),
so a negative i32 is recovered as `value + 2^32`, not as itself. -/
theorem frame_codec_roundtrip (id : Nat) (ops : List WriteOp) (hid : id < 65536)
    (hops : ∀ op ∈ ops, opInRange op) :
    (getBytes id ops).drop 4 = packetBody id ops ∧
    (readShort ⟨packetBody id ops, 0⟩).1 = id ∧
    (readFields ops (readShort ⟨packetBody id ops, 0⟩).2).1 = ops.map expectedVal := by
  have hdrop : (getBytes id ops).drop 4 = packetBody id ops := by
    unfold getBytes
    have h4 : (be4 (packetBody id ops).length).length = 4 := rfl
    rw [← h4, List.drop_left]
  have hshort : readShort ⟨packetBody id ops, 0⟩ = (id, ⟨packetBody id ops, 2⟩) := by
    unfold packetBody
    simpa using readShort_at [] ((ops.map encodeOp).flatten) id hid
  refine ⟨hdrop, by rw [hshort], ?_⟩
  rw [hshort]
  have h2 : (2 : Nat) = ([] ++ be2 id).length := rfl
  have hb : packetBody id ops = (be2 id) ++ (ops.map encodeOp).flatten ++ [] := by
    simp [packetBody]
  have hb2 : packetBody id ops = ([] ++ be2 id) ++ (ops.map encodeOp).flatten ++ [] := by
    simpa using hb
  rw [hb2, h2, readFields_encode ops ([] ++ be2 id) [] hops]

/-- C2 (counterexample part): the builder packs i32 fields signed (`'>i'`) but
`Buffer.read_integer` unpacks unsigned (`'>I'`); writing `-1` as an i32 into a
packet with id 0 and reading it back yields `4294967295`, not `-1`. -/
theorem frame_codec_signed_i32_counterexample :
    (readInteger (readShort ⟨packetBody 0 [WriteOp.wint (-1)], 0⟩).2).1 = 4294967295 ∧
      ((4294967295 : Int) ≠ (-1 : Int)) := by decide

/-- The writes of concrete scenario 3 of the spec (`get_guest_room`). -/
def scenarioOps : List WriteOp := [.wint 80257391, .wint 0, .wint 1]

/-- Witness for the amended C2 at packet id 2158 with three i32 writes. -/
theorem frame_codec_roundtrip_witness :
    (2158 < 65536 ∧ ∀ op ∈ scenarioOps, opInRange op) ∧
      ((getBytes 2158 scenarioOps).drop 4 = packetBody 2158 scenarioOps ∧
       (readShort ⟨packetBody 2158 scenarioOps, 0⟩).1 = 2158 ∧
       (readFields scenarioOps (readShort ⟨packetBody 2158 scenarioOps, 0⟩).2).1
         = scenarioOps.map expectedVal) :=
  ⟨⟨by norm_num, by norm_num [scenarioOps, opInRange]⟩,
    frame_codec_roundtrip 2158 scenarioOps (by norm_num)
      (by norm_num [scenarioOps, opInRange])⟩

/-! ## RSA helpers (habbo_client.py and crypto.py) -/

/-- Fuel-driven square-and-multiply; `powModF (b+1) a b n` computes
`a ^ b % n` (proved below) and evaluates in `O(log b)` steps. -/
def powModF : Nat → Nat → Nat → Nat → Nat
  | 0, _, _, n => 1 % n
  | fuel + 1, a, b, n =>
    if b = 0 then 1 % n
    else
      let h := powModF fuel (a * a % n) (b / 2) n
      if b % 2 = 1 then a % n * h % n else h

/-- Python's three-argument `pow(a, b, n)`: modular exponentiation. -/
def powMod (a b n : Nat) : Nat := powModF (b + 1) a b n

theorem powModF_eq : ∀ (fuel b a n : Nat), 0 < n → b < 2 ^ fuel →
    powModF fuel a b n = a ^ b % n
  | 0, b, a, n, _, hb => by
    have hb0 : b = 0 := by simpa using Nat.lt_one_iff.mp (by simpa using hb)
    subst hb0
    simp [powModF]
  | fuel + 1, b, a, n, hn, hb => by
    by_cases h0 : b = 0
    · subst h0; simp [powModF]
    · have hp : (2 : Nat) ^ (fuel + 1) = 2 * 2 ^ fuel := by
        rw [Nat.pow_succ, Nat.mul_comm]
      have hb2 : b / 2 < 2 ^ fuel := by omega
      have ih := powModF_eq fuel (b / 2) (a * a % n) n hn hb2
      simp only [powModF, if_neg h0]
      rw [ih]
      have key : (a * a % n) ^ (b / 2) % n = a ^ (2 * (b / 2)) % n := by
        rw [← Nat.pow_mod]
        have : a * a = a ^ 2 := by ring
        rw [this, ← Nat.pow_mul]
      by_cases hodd : b % 2 = 1
      · rw [if_pos hodd, key, ← Nat.mul_mod]
        have hsplit : a * a ^ (2 * (b / 2)) = a ^ b := by
          have hb' : b = 2 * (b / 2) + 1 := by omega
          conv_rhs => rw [hb']
          rw [Nat.pow_succ]
          ring
        rw [hsplit]
      · have heven : 2 * (b / 2) = b := by omega
        rw [if_neg hodd, key, heven]

theorem powMod_eq (a b n : Nat) (hn : 0 < n) : powMod a b n = a ^ b % n :=
  powModF_eq (b + 1) b a n hn
    (Nat.lt_of_lt_of_le (Nat.lt_two_pow b) (Nat.pow_le_pow_right (by norm_num) (Nat.le_succ b)))

/-- Python `int.from_bytes(l, 'big')`. -/
def bytesToNat (l : List Nat) : Nat := l.foldl (fun a b => 256 * a + b) 0

/-- Python `v.to_bytes(size, 'big')` (the callers below always satisfy
`v < 256 ^ size`, where Python would otherwise raise `OverflowError`). -/
def natToBytesBE : Nat → Nat → List Nat
  | 0, _ => []
  | k + 1, v => natToBytesBE k (v / 256) ++ [v % 256]

/-- Lowercase hex digit of a nibble, as an ASCII code. -/
def hexDigitChar (d : Nat) : Nat := if d < 10 then 48 + d else 87 + d

/-- Python `bytes.hex()`: two lowercase hex characters per byte. -/
def bytesToHex (l : List Nat) : List Nat :=
  (l.map (fun b => [hexDigitChar (b / 16), hexDigitChar (b % 16)])).flatten

/-- Value of one hex character (`int(s, 16)` raises on anything else; the
inputs below are always produced by `bytesToHex`, so the 0 default is never
reached). -/
def hexCharVal (c : Nat) : Nat :=
  if 48 ≤ c ∧ c ≤ 57 then c - 48
  else if 97 ≤ c ∧ c ≤ 102 then c - 87
  else if 65 ≤ c ∧ c ≤ 70 then c - 55
  else 0

/-- Python `int(s, 16)` on a hex string. -/
def hexToNat (l : List Nat) : Nat := l.foldl (fun a c => 16 * a + hexCharVal c) 0

/-- An ASCII whitespace byte (the characters `int()` strips). -/
def isSpaceB (c : Nat) : Bool := c == 32 || c == 9 || c == 10 || c == 11 || c == 12 || c == 13

/-- Decimal value of a digit run. -/
def digitsVal (l : List Nat) : Nat := l.foldl (fun a c => 10 * a + (c - 48)) 0

/-- All bytes are ASCII digits. -/
def allDigits (l : List Nat) : Bool := l.all (fun c => 48 ≤ c && c ≤ 57)

/-- `int()` on the whitespace-stripped text: an optional sign followed by a
non-empty digit run (digit-group underscores are not modelled — no input here
contains one). -/
def pyIntStripped : List Nat → Option Int
  | [] => none
  | c :: rest =>
    if c = 45 then (if rest ≠ [] ∧ allDigits rest then some (-(digitsVal rest : Int)) else none)
    else if c = 43 then (if rest ≠ [] ∧ allDigits rest then some ((digitsVal rest : Int)) else none)
    else (if allDigits (c :: rest) then some ((digitsVal (c :: rest) : Int)) else none)

/-- Python `int(bytes.decode('ascii'))`: `none` models the exception path
(decode fails on a byte ≥ 0x80, `int()` fails on malformed text). -/
def pyIntOfAscii (l : List Nat) : Option Int :=
  if l.any (fun c => 128 ≤ c) then none
  else pyIntStripped (((l.dropWhile isSpaceB).reverse.dropWhile isSpaceB).reverse)

/-- `constants.RSA_MODULUS_HEX` as an integer. -/
def RSA_N : Nat := 0xC5DFF029848CD5CF4A84ADEFB2DA6685704920D5EBE8850B82C419A97B95302DE3B8021F37719FEBD4B3516E04D1E4702E74C468C9FF4BBBB5DD44A1E3A08687EDBEF7C30A176F7C8C83226A77F7982F7442D884D8149E924C486F43035C07B9167EA998416919DA4116D5E0598C11BA1542B4160136F04135C06EDF80170245E73C0DAD63895F52DCED3735582C5852744C8EC40AF576F26A9C8DC5B64ED3DAD40EFAAC6A76A1F5C2A422A8A4691F8991356467BDA61E1D34D0F35531058C8F741E4661ACFCB15C806A996AC312A8D33BF45079B89E11787537B37364749B883BDBFDE51A1A55086CF16159F5DEBCC76342AC2EF6950DA0C70C5845C97DFD49

/-- `constants.RSA_EXPONENT_HEX` as an integer. -/
def RSA_E : Nat := 0x10001

/-- `(rsa_key.n.bit_length() + 7) // 8` for the 2048-bit modulus above. -/
def rsaKeySize : Nat := 256

set_option maxRecDepth 9000 in
/-- Certifies `rsaKeySize`: the modulus really has bit length 2048. -/
theorem rsa_modulus_bit_length : 2 ^ 2047 ≤ RSA_N ∧ RSA_N < 2 ^ 2048 := by decide

/-- Python index of the first `0` in a byte string (`none` = `ValueError`). -/
def findZeroIdx : List Nat → Option Nat
  | [] => none
  | c :: rest => if c = 0 then some 0 else (findZeroIdx rest).map (· + 1)

/-- Python `block.index(b'\x00', start)` (`none` = `ValueError`). -/
def findZeroFrom (l : List Nat) (start : Nat) : Option Nat :=
  (findZeroIdx (l.drop start)).map (start + ·)

/-- The padded block `00 02 PS 00 m` built by `_rsa_pad_and_encrypt`. -/
def rsaPadBlock (m ps : List Nat) : List Nat := 0 :: 2 :: (ps ++ 0 :: m)

/-- `HabboClientGUI._rsa_pad_and_encrypt`, determinized by passing the random
non-zero padding string `ps` explicitly: pad, interpret big-endian, raise to
the public exponent mod the modulus, and emit as a fixed-width lowercase hex
string. -/
def rsaPadAndEncrypt (m ps : List Nat) : List Nat :=
  bytesToHex (natToBytesBE rsaKeySize (powMod (bytesToNat (rsaPadBlock m ps)) RSA_E RSA_N))

/-- The unpadding tail of `HabboClientGUI._rsa_verify_and_unpad`, applied to
the already-decrypted fixed-size block: find the `0x00` separator starting at
offset 2, then parse the remainder as an ASCII decimal.  Every exception is
caught by the bare `except` and re-raised as `ValueError("RSA Error")`. -/
def clientUnpadBlock (blk : List Nat) : Except String Int :=
  match findZeroFrom blk 2 with
  | none => .error "RSA Error"
  | some idx =>
    match pyIntOfAscii (blk.drop (idx + 1)) with
    | none => .error "RSA Error"
    | some v => .ok v

/-- `HabboClientGUI._rsa_verify_and_unpad`: parse the hex string, raise to the
**public** exponent mod the modulus (this is the same operation the encryptor
applied — not its inverse), convert to a fixed-size block and unpad. -/
def rsaVerifyAndUnpad (encryptedHex : List Nat) : Except String Int :=
  clientUnpadBlock (natToBytesBE rsaKeySize (powMod (hexToNat encryptedHex) RSA_E RSA_N))

/-- `crypto.rsa_pkcs1_v1_5_verify_and_unpad`, block-processing part (the final
integer of the returned tuple): accept a `00 01` or bare `01` prefix, reject
anything else, find the `0x00` separator after the prefix, and parse the
remainder as an ASCII decimal.  The two `ValueError` messages of the source are
kept distinct from the (uncaught) decode/parse failure. -/
def cryptoUnpadBlock (blk : List Nat) : Except String Int :=
  if blk.take 2 = [0, 1] then cryptoUnpadAt 2 blk
  else if blk.take 1 = [1] then cryptoUnpadAt 1 blk
  else .error "Invalid PKCS#1 padding: Block does not start with 0x0001 or 0x01."
where
  cryptoUnpadAt (off : Nat) (blk : List Nat) : Except String Int :=
    match findZeroFrom blk off with
    | none => .error "Invalid PKCS#1 padding: No 0x00 separator found after padding."
    | some idx =>
      match pyIntOfAscii (blk.drop (idx + 1)) with
      | none => .error "ascii decode or int parse failure"
      | some v => .ok v

/-- Equality of modelled Python results (value or exception) is decidable. -/
instance {ε α : Type} [DecidableEq ε] [DecidableEq α] : DecidableEq (Except ε α) := fun x y =>
  match x, y with
  | .error a, .error b =>
    if h : a = b then .isTrue (congrArg Except.error h)
    else .isFalse (fun he => h (by injection he))
  | .ok a, .ok b =>
    if h : a = b then .isTrue (congrArg Except.ok h)
    else .isFalse (fun he => h (by injection he))
  | .error _, .ok _ => .isFalse (fun he => Except.noConfusion he)
  | .ok _, .error _ => .isFalse (fun he => Except.noConfusion he)

/-! ### C3: the pad/unpad pair -/

theorem findZeroIdx_none : ∀ (l : List Nat), (∀ c ∈ l, c ≠ 0) → findZeroIdx l = none
  | [], _ => rfl
  | c :: rest, h => by
    have hc : c ≠ 0 := h c (by simp)
    simp only [findZeroIdx, if_neg hc, findZeroIdx_none rest (fun x hx => h x (by simp [hx]))]
    rfl

theorem findZeroIdx_append : ∀ (ps m : List Nat), (∀ c ∈ ps, c ≠ 0) →
    findZeroIdx (ps ++ 0 :: m) = some ps.length
  | [], m, _ => by simp [findZeroIdx]
  | c :: ps, m, h => by
    have hc : c ≠ 0 := h c (by simp)
    have ih := findZeroIdx_append ps m (fun x hx => h x (by simp [hx]))
    show (if c = 0 then some 0 else (findZeroIdx (ps ++ 0 :: m)).map (· + 1))
      = some (c :: ps).length
    rw [if_neg hc, ih]
    rfl

theorem dropWhile_of_none : ∀ (l : List Nat), (∀ c ∈ l, isSpaceB c = false) →
    l.dropWhile isSpaceB = l
  | [], _ => rfl
  | c :: rest, h => by
    rw [List.dropWhile_cons_of_neg (by simp [h c (by simp)])]

theorem digit_not_space {c : Nat} (h48 : 48 ≤ c) (h57 : c ≤ 57) : isSpaceB c = false := by
  simp only [isSpaceB, Bool.or_eq_false_iff, beq_eq_false_iff_ne, ne_eq]
  omega

theorem pyIntOfAscii_digits (m : List Nat) (hm : m ≠ [])
    (hdig : ∀ c ∈ m, 48 ≤ c ∧ c ≤ 57) :
    pyIntOfAscii m = some ((digitsVal m : Int)) := by
  have hnospace : ∀ c ∈ m, isSpaceB c = false := fun c hc =>
    digit_not_space (hdig c hc).1 (hdig c hc).2
  have hno128 : m.any (fun c => 128 ≤ c) = false := by
    rw [List.any_eq_false]
    intro c hc
    have h := hdig c hc
    simp only [decide_eq_true_eq]
    omega
  have hall : allDigits m = true := by
    rw [allDigits, List.all_eq_true]
    intro x hx
    have h := hdig x hx
    simp only [Bool.and_eq_true, decide_eq_true_eq]
    omega
  unfold pyIntOfAscii
  rw [hno128]
  have hd1 : m.dropWhile isSpaceB = m := dropWhile_of_none m hnospace
  have hd2 : m.reverse.dropWhile isSpaceB = m.reverse :=
    dropWhile_of_none m.reverse (fun c hc => hnospace c (List.mem_reverse.mp hc))
  rw [if_neg Bool.false_ne_true, hd1, hd2, List.reverse_reverse]
  match m, hm, hdig, hall with
  | c :: rest, _, hdig, hall =>
    have hc := hdig c (by simp)
    have h45 : c ≠ 45 := by omega
    have h43 : c ≠ 43 := by omega
    show (if c = 45 then (if rest ≠ [] ∧ allDigits rest then some (-(digitsVal rest : Int)) else none)
      else if c = 43 then (if rest ≠ [] ∧ allDigits rest then some ((digitsVal rest : Int)) else none)
      else (if allDigits (c :: rest) then some ((digitsVal (c :: rest) : Int)) else none))
      = some ((digitsVal (c :: rest) : Int))
    rw [if_neg h45, if_neg h43, if_pos hall]

/-- C3 (counterexample part): applying the client's RSA verify-and-unpad to
the output of its RSA pad-and-encrypt for the digit message `"12345"` (with a
concrete all-`0x01` padding string of the prescribed length) raises
`ValueError("RSA Error")` instead of recovering the message: both functions
raise to the **public** exponent, so the composition is not the identity. -/
def c3Message : List Nat := [49, 50, 51, 52, 53]

/-- 248 non-zero padding bytes: `rsaKeySize - |m| - 3` for the 5-byte message. -/
def c3Padding : List Nat := List.replicate 248 1

set_option maxRecDepth 20000 in
/-- C3 (counterexample part, statement): `unpad(encrypt("12345"))` errors and
in particular differs from the message value `12345`. -/
theorem rsa_public_roundtrip_counterexample :
    rsaVerifyAndUnpad (rsaPadAndEncrypt c3Message c3Padding) = Except.error "RSA Error" ∧
      (Except.error "RSA Error" : Except String Int) ≠ Except.ok ((digitsVal c3Message : Int)) := by
  constructor
  · decide
  · decide

/-- C3 (amended): the padding layer itself round-trips — for every non-empty
ASCII-decimal message `m` with `|m| ≤ |n| − 11` and every padding string of the
length the code computes with only non-zero bytes, unpadding the **padded
block** `00 02 PS 00 m` recovers the decimal value of `m`.  The full
composition `unpad(encrypt(m))` does **not** recover `m` (see the
counterexample), because `_rsa_verify_and_unpad` re-applies the public
exponent instead of inverting the encryption. -/
theorem rsa_pad_block_unpad_roundtrip (m ps : List Nat) (hm : m ≠ [])
    (hdig : ∀ c ∈ m, 48 ≤ c ∧ c ≤ 57) (hlen : m.length + 11 ≤ rsaKeySize)
    (hps : ps.length = rsaKeySize - m.length - 3) (hpsnz : ∀ c ∈ ps, c ≠ 0) :
    clientUnpadBlock (rsaPadBlock m ps) = Except.ok ((digitsVal m : Int)) := by
  unfold clientUnpadBlock rsaPadBlock findZeroFrom
  rw [show ((0 : Nat) :: 2 :: (ps ++ 0 :: m)).drop 2 = ps ++ 0 :: m from rfl]
  rw [findZeroIdx_append ps m hpsnz]
  simp only [Option.map_some']
  have hdrop : ((0 : Nat) :: 2 :: (ps ++ 0 :: m)).drop (2 + ps.length + 1) = m := by
    have h1 : 2 + ps.length + 1 = (ps.length + 1) + 1 + 1 := by omega
    rw [h1, List.drop_succ_cons, List.drop_succ_cons, ← List.drop_drop,
      List.drop_left, List.drop_succ_cons, List.drop_zero]
  rw [hdrop, pyIntOfAscii_digits m hm hdig]

set_option maxRecDepth 20000 in
/-- Witness for the amended C3 at the message `"12345"` with 248 bytes of
`0x01` padding. -/
theorem rsa_pad_block_unpad_roundtrip_witness :
    (c3Message ≠ [] ∧ (∀ c ∈ c3Message, 48 ≤ c ∧ c ≤ 57)
        ∧ c3Message.length + 11 ≤ rsaKeySize
        ∧ c3Padding.length = rsaKeySize - c3Message.length - 3
        ∧ (∀ c ∈ c3Padding, c ≠ 0)) ∧
      clientUnpadBlock (rsaPadBlock c3Message c3Padding)
        = Except.ok ((digitsVal c3Message : Int)) :=
  ⟨⟨by decide, by decide, by decide, by decide, by decide⟩,
    rsa_pad_block_unpad_roundtrip c3Message c3Padding (by decide) (by decide) (by decide)
      (by decide) (by decide)⟩

/-! ### C4: the crypto.py unpad acceptor -/

theorem findZeroFrom_cons_succ (x : Nat) (l : List Nat) (k : Nat) :
    findZeroFrom (x :: l) (k + 1) = (findZeroFrom l k).map (· + 1) := by
  unfold findZeroFrom
  rw [List.drop_succ_cons]
  cases h : findZeroIdx (l.drop k) with
  | none => simp
  | some j => simp [Nat.add_right_comm]

theorem cryptoUnpad_skip_leading_zero (T : List Nat) :
    cryptoUnpadBlock (0 :: 1 :: T) = cryptoUnpadBlock (1 :: T) := by
  unfold cryptoUnpadBlock
  have ha : List.take 2 ((0 : Nat) :: 1 :: T) = [0, 1] := rfl
  have hb : List.take 1 ((1 : Nat) :: T) = [1] := rfl
  rw [if_pos ha, if_neg (by simp), if_pos hb]
  unfold cryptoUnpadBlock.cryptoUnpadAt
  rw [show (2 : Nat) = 1 + 1 from rfl, findZeroFrom_cons_succ 0 (1 :: T) 1,
    findZeroFrom_cons_succ 1 T 0]
  cases h : findZeroFrom T 0 with
  | none => simp
  | some j =>
    simp only [Option.map_some']
    rw [show j + 1 + 1 + 1 = (j + 1 + 1) + 1 from rfl, List.drop_succ_cons,
      show j + 1 + 1 = (j + 1) + 1 from rfl, List.drop_succ_cons]

theorem cryptoUnpad_rejects_zero_zero (T : List Nat) :
    cryptoUnpadBlock (0 :: 0 :: T)
      = .error "Invalid PKCS#1 padding: Block does not start with 0x0001 or 0x01." := by
  unfold cryptoUnpadBlock
  rw [if_neg (by simp), if_neg (by simp)]

theorem cryptoUnpad_no_separator (T : List Nat) (h : ∀ c ∈ T, c ≠ 0) :
    cryptoUnpadBlock (0 :: 1 :: T)
        = .error "Invalid PKCS#1 padding: No 0x00 separator found after padding." ∧
      cryptoUnpadBlock (1 :: T)
        = .error "Invalid PKCS#1 padding: No 0x00 separator found after padding." := by
  have hz : findZeroFrom T 0 = none := by
    unfold findZeroFrom
    rw [List.drop_zero, findZeroIdx_none T h]
    rfl
  have hb : List.take 1 ((1 : Nat) :: T) = [1] := rfl
  constructor
  · rw [cryptoUnpad_skip_leading_zero]
    unfold cryptoUnpadBlock
    rw [if_neg (by simp), if_pos hb]
    unfold cryptoUnpadBlock.cryptoUnpadAt
    rw [findZeroFrom_cons_succ 1 T 0, hz]
    rfl
  · unfold cryptoUnpadBlock
    rw [if_neg (by simp), if_pos hb]
    unfold cryptoUnpadBlock.cryptoUnpadAt
    rw [findZeroFrom_cons_succ 1 T 0, hz]
    rfl

/-- C4: the `crypto.py` verify-and-unpad acceptor treats a decrypted block
beginning `00 01` exactly like the same block beginning directly with `01`
(identical result, hence the identical integer on success); it rejects a block
beginning `00 00` with the prefix `ValueError`; and when a block with an
accepted prefix contains no `0x00` separator after the padding it raises the
separator `ValueError`. -/
theorem rsa_unpad_prefix_tolerance :
    (∀ T : List Nat, cryptoUnpadBlock (0 :: 1 :: T) = cryptoUnpadBlock (1 :: T)) ∧
    (∀ T : List Nat, cryptoUnpadBlock (0 :: 0 :: T)
        = .error "Invalid PKCS#1 padding: Block does not start with 0x0001 or 0x01.") ∧
    (∀ T : List Nat, (∀ c ∈ T, c ≠ 0) →
      cryptoUnpadBlock (0 :: 1 :: T)
          = .error "Invalid PKCS#1 padding: No 0x00 separator found after padding." ∧
        cryptoUnpadBlock (1 :: T)
          = .error "Invalid PKCS#1 padding: No 0x00 separator found after padding.") :=
  ⟨cryptoUnpad_skip_leading_zero, cryptoUnpad_rejects_zero_zero, cryptoUnpad_no_separator⟩

/-- Witness for C4: the all-`0xff` tail has no separator, and both prefix
forms of a block around the payload `"12345"` unpad identically. -/
theorem rsa_unpad_prefix_tolerance_witness :
    (∀ c ∈ [255, 255, 255], c ≠ 0) ∧
      cryptoUnpadBlock [0, 1, 255, 255, 255]
          = .error "Invalid PKCS#1 padding: No 0x00 separator found after padding." ∧
      cryptoUnpadBlock [1, 255, 255, 255]
          = .error "Invalid PKCS#1 padding: No 0x00 separator found after padding." ∧
      cryptoUnpadBlock [0, 1, 255, 0, 49, 50, 51, 52, 53]
          = cryptoUnpadBlock [1, 255, 0, 49, 50, 51, 52, 53] :=
  ⟨by decide,
    (rsa_unpad_prefix_tolerance.2.2 [255, 255, 255] (by decide)).1,
    (rsa_unpad_prefix_tolerance.2.2 [255, 255, 255] (by decide)).2,
    rsa_unpad_prefix_tolerance.1 [255, 0, 49, 50, 51, 52, 53]⟩

/-! ## room_map.py / parsers.py — room geometry -/

/-- `RoomMap.__init__`: grids empty, dimensions 0, door unknown.  Cells of
`floor_map` are byte strings (`[]` models Python's initial `''`, `[c]` a
one-character tile code); `tile_heights` stores the raw masked value
`tile_value & 0x3FFF`, i.e. 256 times the Python float, which is exact. -/
structure RoomMapS where
  width : Nat
  height : Nat
  floor_map : List (List (List Nat))
  tile_heights : List (List Nat)
  stacking_blocked : List (List Bool)
  is_room_tile : List (List Bool)
  door_x : Int
  door_y : Int
deriving Repr, DecidableEq

/-- A fresh `RoomMap()`. -/
def initRoomMap : RoomMapS := ⟨0, 0, [], [], [], [], -1, -1⟩

/-- Python `str.strip()` (exact for the ASCII whitespace actually strippable
in map strings). -/
def stripB (l : List Nat) : List Nat :=
  ((l.dropWhile isSpaceB).reverse.dropWhile isSpaceB).reverse

/-- ASCII lowercase of one byte (Python `str.lower()` on ASCII text). -/
def lowerB (c : Nat) : Nat := if 65 ≤ c ∧ c ≤ 90 then c + 32 else c

/-- Python sequence indexing `l[i]`: negative indices wrap from the end,
out-of-range indices raise `IndexError` (modelled as `none`). -/
def pyNth {α : Type} (l : List α) (i : Int) : Option α :=
  if 0 ≤ i then l.get? i.toNat
  else if (-i).toNat ≤ l.length then l.get? (l.length - (-i).toNat)
  else none

/-- `rows[y][x]` down to the character: `none` = `IndexError`. -/
def pyChar (rows : List (List Nat)) (y x : Int) : Option Nat :=
  (pyNth rows y).bind fun row => pyNth row x

/-- `rows[y][x] == 'x'` inside the `try` block (`none` = `IndexError`). -/
def eqX (o : Option Nat) : Option Bool := o.map (fun c => c == 120)

/-- Python short-circuit `and` under exceptions: the right operand is only
reached when the left one is `True`. -/
def andO : Option Bool → Option Bool → Option Bool
  | none, _ => none
  | some false, _ => some false
  | some true, b => b

/-- One candidate of the door-finding heuristic: the first `if` matches when
north, west and south are all `'x'` (door faces east, 90), otherwise the
second `if` matches when north, west and east are all `'x'` (door faces
south, 180); an `IndexError` while evaluating either condition skips the
candidate (`except IndexError: continue`). -/
def checkDoorCand (rows : List (List Nat)) (y x : Nat) : Option Nat :=
  let c1 := andO (andO (eqX (pyChar rows ((y : Int) - 1) x))
      (eqX (pyChar rows y ((x : Int) - 1)))) (eqX (pyChar rows ((y : Int) + 1) x))
  match c1 with
  | none => none
  | some true => some 90
  | some false =>
    let c2 := andO (andO (eqX (pyChar rows ((y : Int) - 1) x))
        (eqX (pyChar rows y ((x : Int) - 1)))) (eqX (pyChar rows y ((x : Int) + 1)))
    match c2 with
    | none => none
    | some true => some 180
    | some false => none

/-- Is a floor-map cell (a byte string) the wall marker, case-insensitively
(`floor_map[y][x].lower() == 'x'`)? -/
def cellIsX (cell : List Nat) : Bool := cell.map lowerB == [120]

/-- Scan one row of the door heuristic from column `x` for `remaining` more
columns; a cell whose floor-map entry is `'x'` is skipped with `continue`. -/
def doorScanRow (rows : List (List Nat)) (fm : List (List (List Nat))) (y : Nat) :
    Nat → Nat → Option (Nat × Nat)
  | _, 0 => none
  | x, remaining + 1 =>
    if cellIsX ((fm.getD y []).getD x []) then doorScanRow rows fm y (x + 1) remaining
    else
      match checkDoorCand rows y x with
      | some dir => some (x, dir)
      | none => doorScanRow rows fm y (x + 1) remaining

/-- Row-major door scan: the first matching candidate wins (the inner `break`
plus the `if door_x != -1: break` after each row). -/
def doorScanRows (rows : List (List Nat)) (fm : List (List (List Nat))) (width : Nat) :
    Nat → Nat → Option (Nat × Nat × Nat)
  | _, 0 => none
  | y, remaining + 1 =>
    match doorScanRow rows fm y 0 width with
    | some (x, dir) => some (x, y, dir)
    | none => doorScanRows rows fm width (y + 1) remaining

/-- `floor_map[y][x] = tile_char` for one assignment; the grid rows all have
length `width`, so `x < width` is exactly Python's `IndexError` bound. -/
def setCell (g : List (List (List Nat))) (y x : Nat) (c : Nat) : List (List (List Nat)) :=
  g.set y ((g.getD y []).set x [c])

/-- Fill one row of `floor_map` from column `x`; `error` carries the partially
mutated grid at the moment the `IndexError` escapes `parse_floor_height_map`. -/
def fillRow (width : Nat) (y : Nat) :
    List (List (List Nat)) → Nat → List Nat → Except (List (List (List Nat))) (List (List (List Nat)))
  | g, _, [] => .ok g
  | g, x, c :: cs =>
    if x < width then fillRow width y (setCell g y x c) (x + 1) cs else .error g

/-- Fill all rows of `floor_map`. -/
def fillRows (width : Nat) :
    List (List (List Nat)) → Nat → List (List Nat) → Except (List (List (List Nat))) (List (List (List Nat)))
  | g, _, [] => .ok g
  | g, y, row :: rows =>
    match fillRow width y g 0 row with
    | .error g' => .error g'
    | .ok g' => fillRows width g' (y + 1) rows

/-- `parse_floor_height_map` (parsers.py): read `{bool}{i32}{string map_text}`,
split the stripped text on `'\r'`, set dimensions, build `floor_map`
(an over-long row raises `IndexError`, modelled as `error` carrying the state
mutated so far — dimensions updated, `floor_map` partial, the other grids and
the door untouched), then reinitialize the numeric/flag grids and run the
door heuristic. -/
def parseFloorHeightMap (payload : List Nat) (rm : RoomMapS) : Except RoomMapS RoomMapS :=
  let b0 : PBuffer := ⟨payload, 0⟩
  let r1 := readBoolean b0
  let r2 := readInteger r1.2
  let r3 := readString r2.2
  let rows := (stripB r3.1).splitOn 13
  let height := rows.length
  let width := if height > 0 then (rows.headD []).length else 0
  let g0 := List.replicate height (List.replicate width ([] : List Nat))
  match fillRows width g0 0 rows with
  | .error partialG =>
    .error { rm with width := width, height := height, floor_map := partialG }
  | .ok g =>
    let door := doorScanRows rows g width 0 height
    .ok { width := width, height := height, floor_map := g,
          tile_heights := List.replicate height (List.replicate width 0),
          stacking_blocked := List.replicate height (List.replicate width false),
          is_room_tile := List.replicate height (List.replicate width false),
          door_x := match door with | some (x, _, _) => (x : Int) | none => -1,
          door_y := match door with | some (_, y, _) => (y : Int) | none => -1 }

/-- Set one cell of a boolean or numeric grid (callers only reach in-range
coordinates; `List.set` out of range is the identity). -/
def setG {α : Type} (g : List (List α)) (y x : Nat) (v : α) : List (List α) :=
  g.set y ((g.getD y []).set x v)

/-- One tile of `parse_height_map`: skipped when fewer than two bytes remain
(the `break`), otherwise the three grids are updated from the 16-bit value.
The source unpacks `'>h'` (signed), but all three uses go through `& 0x4000`,
`& 0x0200` and `& 0x3FFF`, which only see the low 16 bits, so the unsigned
reading is used here. -/
def hmCell (raw : List Nat) (w : Nat) (rm : RoomMapS) (y x : Nat) : RoomMapS :=
  let index := (y * w + x) * 2
  if index + 2 ≤ raw.length then
    let v := 256 * raw.getD index 0 + raw.getD (index + 1) 0
    { rm with
      stacking_blocked := setG rm.stacking_blocked y x (v &&& 16384 != 0),
      is_room_tile := setG rm.is_room_tile y x (v &&& 512 == 0),
      tile_heights := setG rm.tile_heights y x (v &&& 16383) }
  else rm

/-- `parse_height_map` (parsers.py): no-op when the dimensions are unset;
otherwise clamp the payload to `width*height*2` bytes and update every tile
that still has two bytes of data (the row-major index is monotone, so the
source's `break` equals skipping the remaining tiles). -/
def parseHeightMap (payload : List Nat) (rm : RoomMapS) : RoomMapS :=
  if rm.width = 0 ∨ rm.height = 0 then rm
  else
    let expected := rm.width * rm.height * 2
    let raw := if payload.length ≠ expected then payload.take expected else payload
    (List.range rm.height).foldl
      (fun acc y => (List.range rm.width).foldl (fun acc2 x => hmCell raw rm.width acc2 y x) acc)
      rm

/-! ## habbo_client.py — disconnect handling, dispatch, send path -/

/-- The `DISCONNECT_REASONS` table with its `"Generic/Unknown"` default. -/
def disconnectReason (code : Int) : String :=
  if code = -2 then "Maintenance Break"
  else if code = 0 then "Logged Out"
  else if code = 1 then "Banned (Just Banned)"
  else if code = 10 then "Banned (Still Banned)"
  else if code = 2 ∨ code = 13 ∨ code = 11 ∨ code = 18 then "Concurrent Login"
  else if code = 12 ∨ code = 19 then "Hotel Closed"
  else if code = 20 then "Incorrect Password"
  else if code = 112 then "Idle Timeout"
  else if code = 122 then "Incompatible Client Version"
  else "Generic/Unknown"

/-- Two's-complement reading of a 32-bit unsigned value (`struct.unpack '>i'`). -/
def toSigned32 (n : Nat) : Int :=
  if n < 2147483648 then (n : Int) else (n : Int) - 4294967296

/-- The i32 code `struct.unpack('>i', payload)[0]` parses out of a 4-byte
disconnect payload. -/
def dcSigned (payload : List Nat) : Int :=
  toSigned32 (16777216 * payload.getD 0 0 + 65536 * payload.getD 1 0
    + 256 * payload.getD 2 0 + payload.getD 3 0)

/-- Observable outcome of `_handle_disconnect_reason`: whether
`BanDetectedException` escapes, whether `is_banned` was set, and the
`(code, reason)` pair that was logged (none when `struct.unpack` failed and
the bare `except Exception: pass` swallowed it). -/
structure DCOut where
  raisedBan : Bool
  bannedSet : Bool
  logged : Option (Int × String)
deriving Repr, DecidableEq

/-- `HabboClientGUI._handle_disconnect_reason`: unpack exactly four bytes as a
signed big-endian i32 (anything else raises inside the `try` and is
swallowed), log the mapped reason, and raise `BanDetectedException` only for
codes 1 and 10. -/
def handleDisconnectReason (payload : List Nat) : DCOut :=
  if payload.length = 4 then
    let code := dcSigned payload
    if code = 1 ∨ code = 10 then ⟨true, true, some (code, disconnectReason code)⟩
    else ⟨false, false, some (code, disconnectReason code)⟩
  else ⟨false, false, none⟩

/-- `parsers.UserObject`. -/
structure UserObjectS where
  user_id : Nat
  name : List Nat
  last_access_date : List Nat
  name_change_allowed : Bool
deriving Repr, DecidableEq

/-- `parse_user_object` (parsers.py): the fixed reader sequence of packet
1157, keeping id, name, last-access date and the name-change flag. -/
def parseUserObject (payload : List Nat) : UserObjectS :=
  let b0 : PBuffer := ⟨payload, 0⟩
  let r1 := readInteger b0
  let r2 := readString r1.2
  let r3 := readString r2.2
  let r4 := readString r3.2
  let r5 := readInteger r4.2
  let r6 := readInteger r5.2
  let r7 := readBoolean r6.2
  let r8 := readInteger r7.2
  let r9 := readInteger r8.2
  let r10 := readBoolean r9.2
  let r11 := readString r10.2
  let r12 := readBoolean r11.2
  ⟨r1.1, r2.1, r11.1, r12.1⟩

/-- ASCII lowercase of a byte string. -/
def lowerBytes (l : List Nat) : List Nat := l.map lowerB

/-- Does `hay` begin with `needle`? -/
def startsWithB : List Nat → List Nat → Bool
  | [], _ => true
  | _ :: _, [] => false
  | a :: as, b :: bs => a == b && startsWithB as bs

/-- Python `needle in hay` on byte strings: substring containment. -/
def hasSubstringB (needle : List Nat) : List Nat → Bool
  | [] => needle.isEmpty
  | c :: t => startsWithB needle (c :: t) || hasSubstringB needle t

/-- `"habb"` as bytes. -/
def habbBytes : List Nat := [104, 97, 98, 98]

/-- The session state touched by the modelled listener branches and the send
path.  `nuxLaunches` counts personalization-flow thread launches;
`pendingApplies` counts replays of a buffered height-map payload (both are
proof instrumentation for "exactly once" claims and influence nothing). -/
structure SessionState where
  connected : Bool
  sockPresent : Bool
  isBanned : Bool
  outgoingCipher : Option ArcState
  roomMap : RoomMapS
  pendingHeightMap : Option (List Nat)
  inRoomEvent : Bool
  username : List Nat
  nuxRunning : Bool
  nuxLaunches : Nat
  pendingApplies : Nat
deriving Repr, DecidableEq

/-- A freshly authenticated session about to run `_listen_for_packets`
(connected, socket present, fresh `RoomMap`, no buffered height map, NUX not
yet run). -/
def initSession : SessionState :=
  ⟨true, true, false, none, initRoomMap, none, false, [], false, 0, 0⟩

/-- One iteration of `_listen_for_packets` for the dispatched packet ids the
claims touch (4000 disconnect-reason, 1510 explicit ban, 590 floor-height-map,
3055 height-map, 1157 user-object); every other id leaves the modelled state
unchanged.  A `BanDetectedException` from the disconnect handler and the
`IndexError` escaping `parse_floor_height_map` both land in the outer
`except`/`finally`, ending the loop with `connected = False`. -/
def listenerStep (st : SessionState) (pid : Nat) (payload : List Nat) : SessionState :=
  if ¬ st.connected then st
  else if pid = 4000 then
    if (handleDisconnectReason payload).raisedBan then
      { st with connected := false, isBanned := true }
    else st
  else if pid = 1510 then { st with connected := false, isBanned := true }
  else if pid = 590 then
    let st1 := { st with inRoomEvent := true }
    match parseFloorHeightMap payload st1.roomMap with
    | .error pm => { st1 with roomMap := pm, connected := false }
    | .ok m =>
      match st1.pendingHeightMap with
      | some p =>
        if p.isEmpty then { st1 with roomMap := m }
        else
          { st1 with
            roomMap := parseHeightMap p m
            pendingHeightMap := none
            pendingApplies := st1.pendingApplies + 1 }
      | none => { st1 with roomMap := m }
  else if pid = 3055 then
    if st.roomMap.width > 0 then { st with roomMap := parseHeightMap payload st.roomMap }
    else { st with pendingHeightMap := some payload }
  else if pid = 1157 then
    let u := parseUserObject payload
    let st1 := { st with username := u.name }
    if hasSubstringB habbBytes (lowerBytes st1.username) && !st1.nuxRunning then
      { st1 with nuxRunning := true, nuxLaunches := st1.nuxLaunches + 1 }
    else st1
  else st

/-- Deliver a sequence of `(id, payload)` frames through the listener loop. -/
def deliverFrames (st : SessionState) (frames : List (Nat × List Nat)) : SessionState :=
  frames.foldl (fun s f => listenerStep s f.1 f.2) st

/-- `HabboClientGUI.send_packet`: return immediately when the session is not
connected or the socket is gone; otherwise encrypt the framed bytes through
the outgoing cipher (when installed) and write them.  The returned list is
what reaches `sock.sendall`. -/
def sendPacket (st : SessionState) (id : Nat) (ops : List WriteOp) : SessionState × List Nat :=
  if ¬ st.connected ∨ ¬ st.sockPresent then (st, [])
  else
    match st.outgoingCipher with
    | some c =>
      let r := applyCipher false c (getBytes id ops)
      ({ st with outgoingCipher := some r.1 }, r.2)
    | none => (st, getBytes id ops)

/-! ### C5: disconnect-reason handling -/

/-- C5 (counterexample part): a disconnect-reason frame with code 0
("Logged Out") does **not** terminate the session — the handler logs the
mapped reason and returns, and the listener continues — contradicting the
claim that every 4000 frame terminates the session. -/
theorem disconnect_nonban_counterexample :
    (listenerStep initSession 4000 [0, 0, 0, 0]).connected = true ∧
      handleDisconnectReason [0, 0, 0, 0] = ⟨false, false, some (0, "Logged Out")⟩ := by
  constructor
  · decide
  · decide

/-- C5 (amended): receipt of a disconnect-reason frame (id 4000) terminates
the session — `BanDetectedException` propagates out of the handler, the
listener stops and the state is `Banned` — **exactly when** the payload is a
4-byte i32 equal to 1 or 10.  For every other 4-byte code the handler only
logs the code mapped through the fixed reason table and the session
continues unchanged; a payload that is not exactly 4 bytes is swallowed by
the handler's `except` and also leaves the session unchanged. -/
theorem disconnect_reason_handling (payload : List Nat) (st : SessionState)
    (hc : st.connected = true) :
    ((listenerStep st 4000 payload).connected = false
        ↔ (payload.length = 4 ∧ (dcSigned payload = 1 ∨ dcSigned payload = 10))) ∧
    ((payload.length = 4 ∧ (dcSigned payload = 1 ∨ dcSigned payload = 10)) →
        (listenerStep st 4000 payload).isBanned = true) ∧
    (¬(payload.length = 4 ∧ (dcSigned payload = 1 ∨ dcSigned payload = 10)) →
        listenerStep st 4000 payload = st ∧
          (payload.length = 4 →
            (handleDisconnectReason payload).logged
              = some (dcSigned payload, disconnectReason (dcSigned payload)))) := by
  by_cases h4 : payload.length = 4
  · by_cases hb : dcSigned payload = 1 ∨ dcSigned payload = 10
    · have hr : (handleDisconnectReason payload).raisedBan = true := by
        unfold handleDisconnectReason
        rw [if_pos h4, if_pos hb]
      have hstep : listenerStep st 4000 payload
          = { st with connected := false, isBanned := true } := by
        simp [listenerStep, hc, hr]
      refine ⟨?_, fun _ => ?_, fun hcontra => absurd ⟨h4, hb⟩ hcontra⟩
      · rw [hstep]
        exact ⟨fun _ => ⟨h4, hb⟩, fun _ => rfl⟩
      · rw [hstep]
    · have hr : (handleDisconnectReason payload).raisedBan = false := by
        unfold handleDisconnectReason
        rw [if_pos h4, if_neg hb]
      have hstep : listenerStep st 4000 payload = st := by
        simp [listenerStep, hc, hr]
      refine ⟨?_, fun h => absurd h.2 hb, fun _ => ⟨hstep, fun _ => ?_⟩⟩
      · rw [hstep]
        constructor
        · intro h
          rw [hc] at h
          exact absurd h (by decide)
        · intro h
          exact absurd h.2 hb
      · unfold handleDisconnectReason
        rw [if_pos h4, if_neg hb]
  · have hr : (handleDisconnectReason payload).raisedBan = false := by
      unfold handleDisconnectReason
      rw [if_neg h4]
    have hstep : listenerStep st 4000 payload = st := by
      simp [listenerStep, hc, hr]
    refine ⟨?_, fun h => absurd h.1 h4, fun _ => ⟨hstep, fun h => absurd h h4⟩⟩
    rw [hstep]
    constructor
    · intro h
      rw [hc] at h
      exact absurd h (by decide)
    · intro h
      exact absurd h.1 h4

/-- Witness for the amended C5: code 1 (the 4-byte payload `00 00 00 01`)
terminates a fresh session as banned. -/
theorem disconnect_reason_handling_witness :
    initSession.connected = true ∧
      (([0, 0, 0, 1] : List Nat).length = 4 ∧
          (dcSigned [0, 0, 0, 1] = 1 ∨ dcSigned [0, 0, 0, 1] = 10)) ∧
      (listenerStep initSession 4000 [0, 0, 0, 1]).connected = false ∧
      (listenerStep initSession 4000 [0, 0, 0, 1]).isBanned = true :=
  ⟨rfl, ⟨rfl, by decide⟩,
    (disconnect_reason_handling [0, 0, 0, 1] initSession rfl).1.mpr ⟨rfl, by decide⟩,
    (disconnect_reason_handling [0, 0, 0, 1] initSession rfl).2.1 ⟨rfl, by decide⟩⟩

/-! ### C6: height-map buffering -/

theorem foldl_fix {α β : Type} (f : β → α → β) (h : ∀ b a, f b a = b) :
    ∀ (l : List α) (b : β), l.foldl f b = b
  | [], _ => rfl
  | a :: l, b => by rw [List.foldl_cons, h, foldl_fix f h l b]

theorem hmCell_nil (w : Nat) (rm : RoomMapS) (y x : Nat) : hmCell [] w rm y x = rm := by
  simp [hmCell]

theorem parseHeightMap_nil (rm : RoomMapS) : parseHeightMap [] rm = rm := by
  unfold parseHeightMap
  by_cases h0 : rm.width = 0 ∨ rm.height = 0
  · rw [if_pos h0]
  · rw [if_neg h0]
    have hraw : (if ([] : List Nat).length ≠ rm.width * rm.height * 2 then
        ([] : List Nat).take (rm.width * rm.height * 2) else []) = [] := by
      by_cases h : ([] : List Nat).length ≠ rm.width * rm.height * 2
      · rw [if_pos h, List.take_nil]
      · rw [if_neg h]
    simp only [hraw]
    have hinner : ∀ (acc : RoomMapS) (y : Nat),
        (List.range rm.width).foldl (fun acc2 x => hmCell [] rm.width acc2 y x) acc = acc :=
      fun acc y => foldl_fix _ (fun b a => hmCell_nil rm.width b y a) (List.range rm.width) acc
    exact foldl_fix _ hinner (List.range rm.height) rm

theorem parseHeightMap_zeroW (p : List Nat) (rm : RoomMapS) (h : rm.width = 0) :
    parseHeightMap p rm = rm := by
  unfold parseHeightMap
  rw [if_pos (Or.inl h)]

theorem listenerStep_hm_buffer (st : SessionState) (p : List Nat)
    (hc : st.connected = true) (hw : st.roomMap.width = 0) :
    listenerStep st 3055 p = { st with pendingHeightMap := some p } := by
  simp [listenerStep, hc, hw]

theorem listenerStep_hm_apply (st : SessionState) (p : List Nat)
    (hc : st.connected = true) (hw : 0 < st.roomMap.width) :
    listenerStep st 3055 p = { st with roomMap := parseHeightMap p st.roomMap } := by
  simp [listenerStep, hc, hw]

theorem listenerStep_dead (st : SessionState) (pid : Nat) (p : List Nat)
    (hc : st.connected = false) : listenerStep st pid p = st := by
  simp [listenerStep, hc]

theorem listenerStep_fhm_error (st : SessionState) (p : List Nat) (pm : RoomMapS)
    (hc : st.connected = true) (hp : parseFloorHeightMap p st.roomMap = .error pm) :
    listenerStep st 590 p
      = { st with inRoomEvent := true, roomMap := pm, connected := false } := by
  simp [listenerStep, hc, hp]

theorem listenerStep_fhm_ok_none (st : SessionState) (p : List Nat) (m : RoomMapS)
    (hc : st.connected = true) (hp : parseFloorHeightMap p st.roomMap = .ok m)
    (hpend : st.pendingHeightMap = none) :
    listenerStep st 590 p = { st with inRoomEvent := true, roomMap := m } := by
  simp [listenerStep, hc, hp, hpend]

theorem listenerStep_fhm_ok_pending_empty (st : SessionState) (p : List Nat) (m : RoomMapS)
    (hc : st.connected = true) (hp : parseFloorHeightMap p st.roomMap = .ok m)
    (hpend : st.pendingHeightMap = some []) :
    listenerStep st 590 p = { st with inRoomEvent := true, roomMap := m } := by
  simp [listenerStep, hc, hp, hpend]

theorem listenerStep_fhm_ok_pending (st : SessionState) (p q : List Nat) (m : RoomMapS)
    (hc : st.connected = true) (hp : parseFloorHeightMap p st.roomMap = .ok m)
    (hpend : st.pendingHeightMap = some q) (hq : q ≠ []) :
    listenerStep st 590 p
      = { st with
          inRoomEvent := true
          roomMap := parseHeightMap q m
          pendingHeightMap := none
          pendingApplies := st.pendingApplies + 1 } := by
  simp [listenerStep, hc, hp, hpend, hq]

/-- C6: delivering a height-map frame before any floor-height-map frame
buffers the payload, and the final `stacking_blocked` grid always equals the
one produced by the reversed order; a buffered **non-empty** payload is
applied exactly once (the replay counter ends at 1 and the buffer is cleared)
provided the floor-height-map frame parses without error.  (The amendment:
an **empty** buffered payload is never replayed, because the source guards
the replay with the truthiness of the buffer — see the counterexample.) -/
theorem height_map_buffering_order (fhm hm : List Nat) :
    ((deliverFrames initSession [(3055, hm), (590, fhm)]).roomMap.stacking_blocked
      = (deliverFrames initSession [(590, fhm), (3055, hm)]).roomMap.stacking_blocked) ∧
    ((hm ≠ [] ∧ (parseFloorHeightMap fhm initRoomMap).isOk = true) →
      (deliverFrames initSession [(3055, hm), (590, fhm)]).pendingApplies = 1 ∧
      (deliverFrames initSession [(3055, hm), (590, fhm)]).pendingHeightMap = none) := by
  have hbuf : listenerStep initSession 3055 hm
      = { initSession with pendingHeightMap := some hm } :=
    listenerStep_hm_buffer initSession hm rfl rfl
  simp only [deliverFrames, List.foldl_cons, List.foldl_nil]
  rw [hbuf]
  cases hp : parseFloorHeightMap fhm initRoomMap with
  | error pm =>
    rw [listenerStep_fhm_error { initSession with pendingHeightMap := some hm } fhm pm rfl hp,
      listenerStep_fhm_error initSession fhm pm rfl hp,
      listenerStep_dead _ 3055 hm rfl]
    exact ⟨rfl, fun h => absurd h.2 (by simp [Except.isOk, Except.toBool])⟩
  | ok m =>
    rw [listenerStep_fhm_ok_none initSession fhm m rfl hp rfl]
    by_cases hqe : hm = []
    · subst hqe
      rw [listenerStep_fhm_ok_pending_empty { initSession with pendingHeightMap := some [] }
        fhm m rfl hp rfl]
      refine ⟨?_, fun h => absurd rfl h.1⟩
      by_cases hw : m.width = 0
      · rw [listenerStep_hm_buffer { initSession with inRoomEvent := true, roomMap := m } [] rfl hw]
      · have hw' : 0 < m.width := Nat.pos_of_ne_zero hw
        rw [listenerStep_hm_apply { initSession with inRoomEvent := true, roomMap := m } [] rfl hw']
        have hnil : parseHeightMap []
            ({ initSession with inRoomEvent := true, roomMap := m } : SessionState).roomMap = m :=
          parseHeightMap_nil m
        rw [hnil]
    · rw [listenerStep_fhm_ok_pending { initSession with pendingHeightMap := some hm }
        fhm hm m rfl hp rfl hqe]
      refine ⟨?_, fun _ => ⟨rfl, rfl⟩⟩
      by_cases hw : m.width = 0
      · rw [listenerStep_hm_buffer { initSession with inRoomEvent := true, roomMap := m } hm rfl hw]
        have hzw : parseHeightMap hm m = m := parseHeightMap_zeroW hm m hw
        simp only [hzw]
      · have hw' : 0 < m.width := Nat.pos_of_ne_zero hw
        rw [listenerStep_hm_apply { initSession with inRoomEvent := true, roomMap := m } hm rfl hw']

/-- The body of concrete scenario 4 of the spec: legacy flag, wall height
and the map string `"xxxxx\rx0000\rx000x\rxxxxx"`. -/
def scenarioFloorPayload : List Nat :=
  [0] ++ [0, 0, 0, 0] ++ [0, 23] ++
    [120, 120, 120, 120, 120, 13, 120, 48, 48, 48, 48, 13,
     120, 48, 48, 48, 120, 13, 120, 120, 120, 120, 120]

/-- C6 (counterexample part): an **empty** height-map payload delivered
before the floor-height-map is buffered but never applied — the replay is
guarded by `if self.pending_height_map_payload:`, which is falsy for `b''` —
so the claim's "applied exactly once" fails there (the replay count stays 0
and the buffer is not even cleared). -/
theorem height_map_empty_buffer_counterexample :
    (deliverFrames initSession [(3055, []), (590, scenarioFloorPayload)]).pendingApplies = 0 ∧
      (deliverFrames initSession [(3055, []), (590, scenarioFloorPayload)]).pendingHeightMap
        = some [] := by
  constructor
  · decide
  · decide

/-- Witness for C6 at the scenario floor map and a 40-byte height map. -/
theorem height_map_buffering_order_witness :
    (([1] : List Nat) ≠ [] ∧
        (parseFloorHeightMap scenarioFloorPayload initRoomMap).isOk = true) ∧
      ((deliverFrames initSession [(3055, [1]), (590, scenarioFloorPayload)]).roomMap.stacking_blocked
        = (deliverFrames initSession [(590, scenarioFloorPayload), (3055, [1])]).roomMap.stacking_blocked) ∧
      (deliverFrames initSession [(3055, [1]), (590, scenarioFloorPayload)]).pendingApplies = 1 ∧
      (deliverFrames initSession [(3055, [1]), (590, scenarioFloorPayload)]).pendingHeightMap = none :=
  ⟨⟨by decide, by decide⟩,
    (height_map_buffering_order scenarioFloorPayload [1]).1,
    ((height_map_buffering_order scenarioFloorPayload [1]).2 ⟨by decide, by decide⟩).1,
    ((height_map_buffering_order scenarioFloorPayload [1]).2 ⟨by decide, by decide⟩).2⟩

/-! ### C7: the door heuristic on the scenario map -/

/-- C7 (counterexample part): on the map `"xxxxx\rx0000\rx000x\rxxxxx"` the
door scan finds **no** matching cell — the candidate (1,1) fails both gap
patterns because its south and east neighbours are floor tiles — so
`door_x` stays `-1`, not the claimed `1`. -/
theorem floor_door_counterexample :
    (match parseFloorHeightMap scenarioFloorPayload initRoomMap with
      | .ok m => m.door_x
      | .error m => m.door_x) = -1 ∧ (-1 : Int) ≠ 1 := by
  constructor
  · decide
  · decide

/-- C7 (amended): the scenario map parses to `width = 5`, `height = 4`, and
the door stays unknown at `(-1, -1)`: no non-`'x'` cell has north, west and
south all `'x'`, nor north, west and east all `'x'`.  (Index overruns during
the scan — `IndexError` — skip the candidate; negative indices wrap to the
other end of the grid, Python-style.) -/
theorem floor_scenario_parse :
    (parseFloorHeightMap scenarioFloorPayload initRoomMap).isOk = true ∧
    (match parseFloorHeightMap scenarioFloorPayload initRoomMap with
      | .ok m => (m.width, m.height, m.door_x, m.door_y)
      | .error m => (m.width, m.height, m.door_x, m.door_y)) = (5, 4, -1, -1) := by
  constructor
  · decide
  · decide

/-! ### C8: the first-login personalization trigger -/

/-- A user-object payload whose parsed display name is `"xhabb"` (id 7; the
remaining fields read as underflow defaults, as the lenient readers allow). -/
def xhabbPayload : List Nat := [0, 0, 0, 7] ++ [0, 5] ++ [120, 104, 97, 98, 98]

/-- C8 (counterexample part): the name `"xhabb"` does **not** begin with
`"habb"`, yet the user-object frame launches the personalization flow,
because the source tests substring containment
(`"habb" in self.username.lower()`), not a prefix. -/
theorem nux_trigger_counterexample :
    (listenerStep initSession 1157 xhabbPayload).nuxLaunches = 1 ∧
      startsWithB habbBytes (lowerBytes (parseUserObject xhabbPayload).name) = false := by
  constructor
  · decide
  · decide

/-- C8 (amended): on a user-object frame the personalization flow is launched
if and only if the parsed own display name **contains** `"habb"`
case-insensitively and the flow has not yet run in this session; the launch
sets the running flag, so the flow runs at most once per session. -/
theorem user_object_nux_trigger (payload : List Nat) (st : SessionState)
    (hc : st.connected = true) :
    (listenerStep st 1157 payload).username = (parseUserObject payload).name ∧
    (listenerStep st 1157 payload).nuxLaunches = st.nuxLaunches +
      (if hasSubstringB habbBytes (lowerBytes (parseUserObject payload).name) && !st.nuxRunning
        then 1 else 0) ∧
    (st.nuxRunning = true → (listenerStep st 1157 payload).nuxLaunches = st.nuxLaunches) ∧
    (hasSubstringB habbBytes (lowerBytes (parseUserObject payload).name) = true →
      (listenerStep st 1157 payload).nuxRunning = true) := by
  have hstep : listenerStep st 1157 payload =
      (if hasSubstringB habbBytes (lowerBytes (parseUserObject payload).name) && !st.nuxRunning
        then { st with
               username := (parseUserObject payload).name
               nuxRunning := true
               nuxLaunches := st.nuxLaunches + 1 }
        else { st with username := (parseUserObject payload).name }) := by
    by_cases hcond : (hasSubstringB habbBytes (lowerBytes (parseUserObject payload).name)
        && !st.nuxRunning) = true
    · simp [listenerStep, hc, hcond]
    · simp [listenerStep, hc, hcond]
  by_cases hcond : (hasSubstringB habbBytes (lowerBytes (parseUserObject payload).name)
      && !st.nuxRunning) = true
  · rw [hstep, if_pos hcond, if_pos hcond]
    refine ⟨rfl, rfl, fun h => ?_, fun _ => rfl⟩
    rw [h] at hcond
    simp at hcond
  · rw [hstep, if_neg hcond, if_neg hcond]
    refine ⟨rfl, rfl, fun _ => rfl, fun h => ?_⟩
    cases hr : st.nuxRunning with
    | true => rfl
    | false =>
      exfalso
      apply hcond
      rw [h, hr]
      rfl

/-- Witness for the amended C8: a name containing (indeed beginning with)
`"HABB"` launches the flow exactly once on a fresh session. -/
def habboPayload : List Nat := [0, 0, 0, 8] ++ [0, 5] ++ [72, 65, 66, 66, 89]

/-- Witness for the amended C8 at the name `"HABBY"`. -/
theorem user_object_nux_trigger_witness :
    initSession.connected = true ∧
      (listenerStep initSession 1157 habboPayload).username
        = (parseUserObject habboPayload).name ∧
      (listenerStep initSession 1157 habboPayload).nuxLaunches = initSession.nuxLaunches +
        (if hasSubstringB habbBytes (lowerBytes (parseUserObject habboPayload).name)
            && !initSession.nuxRunning then 1 else 0) ∧
      (hasSubstringB habbBytes (lowerBytes (parseUserObject habboPayload).name) = true →
        (listenerStep initSession 1157 habboPayload).nuxRunning = true) :=
  ⟨rfl, (user_object_nux_trigger habboPayload initSession rfl).1,
    (user_object_nux_trigger habboPayload initSession rfl).2.1,
    (user_object_nux_trigger habboPayload initSession rfl).2.2.2⟩

/-! ### C10: the send path when the session is down -/

/-- C10: `send_packet` returns immediately — no bytes written, the outgoing
cipher state (S, i, j) and every other part of the session state unchanged —
whenever the session is not connected or the socket is absent. -/
theorem send_packet_disconnected_noop (st : SessionState) (id : Nat) (ops : List WriteOp)
    (h : st.connected = false ∨ st.sockPresent = false) :
    sendPacket st id ops = (st, []) := by
  unfold sendPacket
  rcases h with h | h
  · rw [if_pos (Or.inl (by rw [h]; decide))]
  · rw [if_pos (Or.inr (by rw [h]; decide))]

/-- Witness for C10: a disconnected session dropping a `get_guest_room`
frame. -/
theorem send_packet_disconnected_noop_witness :
    (({ initSession with connected := false } : SessionState).connected = false ∨
        ({ initSession with connected := false } : SessionState).sockPresent = false) ∧
      sendPacket { initSession with connected := false } 2158 scenarioOps
        = ({ initSession with connected := false }, []) :=
  ⟨Or.inl rfl,
    send_packet_disconnected_noop { initSession with connected := false } 2158 scenarioOps
      (Or.inl rfl)⟩
